import Mathlib

/-!
Shallow embedding of src/market_health.py (minute-level liquidity factor
engine).  Python floats are modelled as exact rationals (ℚ); the two
transcendental helpers (`math.log`, `math.exp`) force the factor-scoring
path into ℝ.  NumPy reductions (`np.median`, `np.quantile`, `np.max`,
`np.min`) are embedded by their documented algorithms: quantiles use the
linear-interpolation definition on the sorted sample, and `np.median` is
the 0.5 quantile (equal to the midpoint average for even-sized samples).
-/

namespace MarketHealth

/-- Source constant `EPS = 1e-12`. -/
def EPS : ℚ := 1 / 10 ^ 12

/-- Embeds `np.max` over a sample (source applies it only to non-empty arrays;
we return 0 on the empty list). -/
def npMax : List ℚ → ℚ
  | [] => 0
  | x :: xs => xs.foldl max x

/-- Embeds `np.min` over a sample (source applies it only to non-empty arrays). -/
def npMin : List ℚ → ℚ
  | [] => 0
  | x :: xs => xs.foldl min x

/-- Ascending sort of a sample, as NumPy sorts before quantile lookup. -/
def sortQ (l : List ℚ) : List ℚ := List.insertionSort (· ≤ ·) l

/-- Linear interpolation at fractional index `h` into the sorted sample
`s`: NumPy's default quantile method reads `s[⌊h⌋] + (h-⌊h⌋)·(s[⌈h⌉]-s[⌊h⌋])`
(the upper index clamped to the last position). -/
def interpSorted (s : List ℚ) (h : ℚ) : ℚ :=
  s.getD (⌊h⌋).toNat 0 + (h - (((⌊h⌋).toNat : ℕ) : ℚ)) *
    (s.getD (min ((⌊h⌋).toNat + 1) (s.length - 1)) 0 - s.getD (⌊h⌋).toNat 0)

/-- Embeds `np.quantile(l, q)` with the default linear-interpolation method. -/
def npQuantile (l : List ℚ) (q : ℚ) : ℚ :=
  interpSorted (sortQ l) (q * ((l.length : ℚ) - 1))

/-- Embeds `np.median l`, i.e. the linear-interpolated 0.5 quantile. -/
def npMedian (l : List ℚ) : ℚ := npQuantile l (1 / 2)

/-- Source `robust_z(x, arr)`: `0` for histories shorter than 5, else
`(x - median) / (1.4826 * (MAD + EPS))` with `MAD` the median absolute
deviation from the median (the source adds `EPS` to the MAD before the
`1.4826` scaling). -/
def robust_z (x : ℚ) (arr : List ℚ) : ℚ :=
  if arr.length < 5 then 0
  else (x - npMedian arr) /
    ((14826 / 10000) * (npMedian (arr.map fun v => |v - npMedian arr|) + EPS))

/-- Source `sigmoid(x) = 1 / (1 + exp(-x))`. -/
noncomputable def sigmoid (x : ℝ) : ℝ := 1 / (1 + Real.exp (-x))

/-! ## Minute aggregator: bookTicker (best bid/ask) -/

/-- Mutable state of `BookTickerMinuteAgg`. -/
structure BookTickerMinuteAgg where
  spreads : List ℚ
  first_mid : Option ℚ
  last_mid : Option ℚ
deriving DecidableEq

/-- Freshly constructed / reset `BookTickerMinuteAgg`. -/
def BookTickerMinuteAgg.init : BookTickerMinuteAgg :=
  { spreads := [], first_mid := none, last_mid := none }

/-- Source `BookTickerMinuteAgg.update(bid1, ask1)`. -/
def BookTickerMinuteAgg.update (s : BookTickerMinuteAgg) (bid1 ask1 : ℚ) :
    BookTickerMinuteAgg :=
  let mid := (bid1 + ask1) / 2
  let rel_spread := (ask1 - bid1) / (mid + EPS)
  { spreads := s.spreads ++ [rel_spread]
    first_mid := some (s.first_mid.getD mid)
    last_mid := some mid }

/-- Closed-minute summary dict of the bookTicker aggregator. -/
structure BookTickerOut where
  mid_open : ℚ
  mid_close : ℚ
  spread_median : ℚ
  spread_p95 : ℚ
  spread_max : ℚ
  spike_ratio : ℚ
  n_updates_bt : ℚ
deriving DecidableEq

/-- Source `BookTickerMinuteAgg.close_minute`: `None` when no update was seen,
otherwise the summary dict; in both cases the state is reset (the reset
state is returned as the second component). -/
def BookTickerMinuteAgg.close_minute (s : BookTickerMinuteAgg) :
    Option BookTickerOut × BookTickerMinuteAgg :=
  match s.spreads, s.first_mid, s.last_mid with
  | [], _, _ => (none, .init)
  | _ :: _, none, _ => (none, .init)
  | _ :: _, some _, none => (none, .init)
  | sp@(_ :: _), some fm, some lm =>
      (some { mid_open := fm
              mid_close := lm
              spread_median := npMedian sp
              spread_p95 := npQuantile sp (95 / 100)
              spread_max := npMax sp
              spike_ratio := npMax sp / (npMedian sp + EPS)
              n_updates_bt := (sp.length : ℚ) }, .init)

/-! ## Minute aggregator: depth10 snapshots -/

/-- Source `Depth10MinuteAgg._sum_usd`: `Σ price·qty` over the given levels. -/
def sum_usd (levels : List (ℚ × ℚ)) : ℚ :=
  levels.foldl (fun s pq => s + pq.1 * pq.2) 0

/-- Mutable state of `Depth10MinuteAgg` (field `n` is the level cap). -/
structure Depth10MinuteAgg where
  n : ℕ
  depth_usd : List ℚ
  imb : List ℚ
  first_depth : Option ℚ
  last_depth : Option ℚ
deriving DecidableEq

/-- Freshly constructed / reset `Depth10MinuteAgg`. -/
def Depth10MinuteAgg.init (n_levels : ℕ) : Depth10MinuteAgg :=
  { n := n_levels, depth_usd := [], imb := [], first_depth := none, last_depth := none }

/-- Source `Depth10MinuteAgg.update(bids_levels, asks_levels)`. -/
def Depth10MinuteAgg.update (s : Depth10MinuteAgg)
    (bids_levels asks_levels : List (ℚ × ℚ)) : Depth10MinuteAgg :=
  let bids := bids_levels.take s.n
  let asks := asks_levels.take s.n
  let bid_usd := sum_usd bids
  let ask_usd := sum_usd asks
  let tot := bid_usd + ask_usd
  let imbv := (bid_usd - ask_usd) / (tot + EPS)
  { s with
    depth_usd := s.depth_usd ++ [tot]
    imb := s.imb ++ [imbv]
    first_depth := some (s.first_depth.getD tot)
    last_depth := some tot }

/-- Closed-minute summary dict of the depth aggregator. -/
structure DepthOut where
  depth_usd_median : ℚ
  depth_usd_p10 : ℚ
  depth_usd_min : ℚ
  imb_median : ℚ
  depth_recover : ℚ
  n_updates_depth : ℚ
deriving DecidableEq

/-- Source `Depth10MinuteAgg.close_minute`: `None` when no update was seen,
otherwise the summary dict (note `depth_recover = (last+EPS)/(first+EPS)`,
with `EPS` added to the numerator as well); always resets. -/
def Depth10MinuteAgg.close_minute (s : Depth10MinuteAgg) :
    Option DepthOut × Depth10MinuteAgg :=
  match s.depth_usd, s.first_depth, s.last_depth with
  | [], _, _ => (none, .init s.n)
  | _ :: _, none, _ => (none, .init s.n)
  | _ :: _, some _, none => (none, .init s.n)
  | x@(_ :: _), some fd, some ld =>
      (some { depth_usd_median := npMedian x
              depth_usd_p10 := npQuantile x (10 / 100)
              depth_usd_min := npMin x
              imb_median := npMedian s.imb
              depth_recover := (ld + EPS) / (fd + EPS)
              n_updates_depth := (x.length : ℚ) }, .init s.n)

/-! ## Minute aggregator: aggTrade (taker side) -/

/-- Mutable state of `AggTradeMinuteAgg`. -/
structure AggTradeMinuteAgg where
  dollar_vol : ℚ
  buy_qty : ℚ
  sell_qty : ℚ
  qty_total : ℚ
  n_trades : ℕ
deriving DecidableEq

/-- Freshly constructed / reset `AggTradeMinuteAgg` (all fields zero). -/
def AggTradeMinuteAgg.init : AggTradeMinuteAgg :=
  { dollar_vol := 0, buy_qty := 0, sell_qty := 0, qty_total := 0, n_trades := 0 }

/-- Source `AggTradeMinuteAgg.update(price, qty, is_buyer_maker)`. -/
def AggTradeMinuteAgg.update (s : AggTradeMinuteAgg) (px qty : ℚ)
    (is_buyer_maker : Bool) : AggTradeMinuteAgg :=
  { dollar_vol := s.dollar_vol + px * qty
    qty_total := s.qty_total + qty
    n_trades := s.n_trades + 1
    buy_qty := if is_buyer_maker then s.buy_qty else s.buy_qty + qty
    sell_qty := if is_buyer_maker then s.sell_qty + qty else s.sell_qty }

/-- Closed-minute summary dict of the trade aggregator.  Unlike the other
two aggregators this is not wrapped in `Option`: the source always
returns a dict. -/
structure AggTradeOut where
  dollar_vol : ℚ
  buy_qty : ℚ
  sell_qty : ℚ
  cvd_delta : ℚ
  qty_total : ℚ
  n_trades : ℚ
deriving DecidableEq

/-- Source `AggTradeMinuteAgg.close_minute`: always returns the summary, then
resets all fields to zero. -/
def AggTradeMinuteAgg.close_minute (s : AggTradeMinuteAgg) :
    AggTradeOut × AggTradeMinuteAgg :=
  ({ dollar_vol := s.dollar_vol
     buy_qty := s.buy_qty
     sell_qty := s.sell_qty
     cvd_delta := s.buy_qty - s.sell_qty
     qty_total := s.qty_total
     n_trades := (s.n_trades : ℚ) }, .init)

/-! ## Rolling 30-minute normalization window -/

/-- Embeds `collections.deque(maxlen=m).append(v)`: append on the right, evicting
from the left once the capacity is exceeded. -/
def dequeAppend (maxlen : ℕ) (l : List ℚ) (v : ℚ) : List ℚ :=
  let l2 := l ++ [v]
  if maxlen < l2.length then l2.drop (l2.length - maxlen) else l2

/-- The eight raw metrics pushed per minute into the rolling window
(the dict argument of `Rolling30m.push`). -/
structure RollMetrics where
  impact : ℚ
  spread_median : ℚ
  spread_p95 : ℚ
  spike_ratio : ℚ
  depth_usd_median : ℚ
  depth_usd_p10 : ℚ
  depth_recover : ℚ
  dollar_vol : ℚ
deriving DecidableEq

/-- Source `Rolling30m`: eight bounded deques (default capacity 30). -/
structure Rolling30m where
  maxlen : ℕ
  impact : List ℚ
  spread_med : List ℚ
  spread_p95 : List ℚ
  spike_ratio : List ℚ
  depth_med : List ℚ
  depth_p10 : List ℚ
  depth_recover : List ℚ
  dollar_vol : List ℚ
deriving DecidableEq

/-- Source `Rolling30m.__init__(maxlen)`: eight empty deques. -/
def Rolling30m.init (maxlen : ℕ) : Rolling30m :=
  { maxlen := maxlen, impact := [], spread_med := [], spread_p95 := []
    spike_ratio := [], depth_med := [], depth_p10 := [], depth_recover := []
    dollar_vol := [] }

/-- Source `Rolling30m.push(m)`: append one value to each of the eight deques. -/
def Rolling30m.push (r : Rolling30m) (m : RollMetrics) : Rolling30m :=
  { r with
    impact := dequeAppend r.maxlen r.impact m.impact
    spread_med := dequeAppend r.maxlen r.spread_med m.spread_median
    spread_p95 := dequeAppend r.maxlen r.spread_p95 m.spread_p95
    spike_ratio := dequeAppend r.maxlen r.spike_ratio m.spike_ratio
    depth_med := dequeAppend r.maxlen r.depth_med m.depth_usd_median
    depth_p10 := dequeAppend r.maxlen r.depth_p10 m.depth_usd_p10
    depth_recover := dequeAppend r.maxlen r.depth_recover m.depth_recover
    dollar_vol := dequeAppend r.maxlen r.dollar_vol m.dollar_vol }

/-! ## Factor computation -/

/-- The merged minute dict handed to `compute_factors` by `run`. -/
structure Minute where
  minute_ts_ms : ℤ
  ret_1m : ℚ
  spread_median : ℚ
  spread_p95 : ℚ
  spread_max : ℚ
  spike_ratio : ℚ
  depth_usd_median : ℚ
  depth_usd_p10 : ℚ
  depth_usd_min : ℚ
  imb_median : ℚ
  depth_recover : ℚ
  dollar_vol : ℚ
  qty_total : ℚ
  cvd_delta : ℚ
  n_trades : ℚ
deriving DecidableEq

/-- Derived metric `impact = |ret_1m| / (dollar_vol + EPS)`. -/
def impactOf (m : Minute) : ℚ := |m.ret_1m| / (m.dollar_vol + EPS)

/-- Derived `absorption` flag: strong one-sided flow, positive volume, tiny move. -/
def absorptionOf (m : Minute) : Bool :=
  decide ((11 / 20 : ℚ) < |m.cvd_delta| / (m.qty_total + EPS)
    ∧ 0 < m.dollar_vol ∧ |m.ret_1m| < 3 / 10000)

/-- Derived `flow_cons`: 0.5 when either sign is undefined, else 1 on sign
agreement of return and CVD delta, else 0. -/
def flow_consOf (m : Minute) : ℚ :=
  if m.ret_1m = 0 ∨ m.cvd_delta = 0 then 1 / 2
  else if (0 < m.ret_1m ∧ 0 < m.cvd_delta) ∨ (m.ret_1m < 0 ∧ m.cvd_delta < 0) then 1
  else 0

/-- Real-valued sort (for the log-compressed histories). -/
noncomputable def sortR (l : List ℝ) : List ℝ := List.insertionSort (· ≤ ·) l

/-- Real-valued linear interpolation into a sorted sample. -/
noncomputable def interpSortedR (s : List ℝ) (h : ℝ) : ℝ :=
  s.getD (⌊h⌋).toNat 0 + (h - (((⌊h⌋).toNat : ℕ) : ℝ)) *
    (s.getD (min ((⌊h⌋).toNat + 1) (s.length - 1)) 0 - s.getD (⌊h⌋).toNat 0)

/-- Real-valued `np.quantile` (linear interpolation). -/
noncomputable def npQuantileR (l : List ℝ) (q : ℝ) : ℝ :=
  interpSortedR (sortR l) (q * ((l.length : ℝ) - 1))

/-- Real-valued `np.median`. -/
noncomputable def npMedianR (l : List ℝ) : ℝ := npQuantileR l (1 / 2)

/-- Embeds `robust_z` on real samples (used on the log-compressed histories). -/
noncomputable def robust_zR (x : ℝ) (arr : List ℝ) : ℝ :=
  if arr.length < 5 then 0
  else (x - npMedianR arr) /
    ((14826 / 10000) * (npMedianR (arr.map fun v => |v - npMedianR arr|) + (EPS : ℝ)))

/-- z-score of impact against the rolling impact history. -/
def z_impactOf (m : Minute) (roll : Rolling30m) : ℚ :=
  robust_z (impactOf m) roll.impact

/-- z-score of the median spread against its rolling history. -/
def z_spreadOf (m : Minute) (roll : Rolling30m) : ℚ :=
  robust_z m.spread_median roll.spread_med

/-- z-score of the p95 spread against its rolling history. -/
def z_spread_tailOf (m : Minute) (roll : Rolling30m) : ℚ :=
  robust_z m.spread_p95 roll.spread_p95

/-- z-score of the spike ratio against its rolling history. -/
def z_spikeOf (m : Minute) (roll : Rolling30m) : ℚ :=
  robust_z m.spike_ratio roll.spike_ratio

/-- z-score of log-compressed median depth (history is log-compressed and
shifted by `EPS` elementwise, as in the source). -/
noncomputable def z_depthOf (m : Minute) (roll : Rolling30m) : ℝ :=
  robust_zR (Real.log ((m.depth_usd_median : ℝ) + 1))
    (roll.depth_med.map fun v => Real.log ((v : ℝ) + 1) + (EPS : ℝ))

/-- z-score of log-compressed p10 depth. -/
noncomputable def z_depth_p10Of (m : Minute) (roll : Rolling30m) : ℝ :=
  robust_zR (Real.log ((m.depth_usd_p10 : ℝ) + 1))
    (roll.depth_p10.map fun v => Real.log ((v : ℝ) + 1) + (EPS : ℝ))

/-- z-score of depth recovery against its rolling history. -/
def z_resOf (m : Minute) (roll : Rolling30m) : ℚ :=
  robust_z m.depth_recover roll.depth_recover

/-- z-score of log-compressed dollar volume. -/
noncomputable def z_dvOf (m : Minute) (roll : Rolling30m) : ℝ :=
  robust_zR (Real.log ((m.dollar_vol : ℝ) + 1))
    (roll.dollar_vol.map fun v => Real.log ((v : ℝ) + 1) + (EPS : ℝ))

/-- The weighted pre-squash LHF score, written against a given window
state (the source computes it against the pre-push window). -/
noncomputable def lhf_goodOf (m : Minute) (roll : Rolling30m) : ℝ :=
  (30 / 100 : ℝ) * (-(z_impactOf m roll : ℝ))
  + (18 / 100) * (-(z_spreadOf m roll : ℝ))
  + (10 / 100) * (-(z_spread_tailOf m roll : ℝ))
  + (7 / 100) * (-(z_spikeOf m roll : ℝ))
  + (20 / 100) * z_depthOf m roll
  + (10 / 100) * z_depth_p10Of m roll
  + (10 / 100) * (z_resOf m roll : ℝ)
  + (5 / 100) * (2 * (flow_consOf m : ℝ) - 1)
  + (10 / 100) * (-(if absorptionOf m then (1 : ℝ) else 0))

/-- The weighted pre-squash COLD score against a given window state. -/
noncomputable def cold_badOf (m : Minute) (roll : Rolling30m) : ℝ :=
  (28 / 100 : ℝ) * (-z_dvOf m roll)
  + (18 / 100) * (-z_depthOf m roll)
  + (12 / 100) * (-z_depth_p10Of m roll)
  + (15 / 100) * (z_spreadOf m roll : ℝ)
  + (7 / 100) * (z_spread_tailOf m roll : ℝ)
  + (6 / 100) * (z_spikeOf m roll : ℝ)
  + (10 / 100) * (z_impactOf m roll : ℝ)
  + (4 / 100) * (-(z_resOf m roll : ℝ))
  + (5 / 100) * (if absorptionOf m then (1 : ℝ) else 0)

/-- The eight raw metrics `compute_factors` pushes into the window. -/
def rollMetricsOf (m : Minute) : RollMetrics :=
  { impact := impactOf m
    spread_median := m.spread_median
    spread_p95 := m.spread_p95
    spike_ratio := m.spike_ratio
    depth_usd_median := m.depth_usd_median
    depth_usd_p10 := m.depth_usd_p10
    depth_recover := m.depth_recover
    dollar_vol := m.dollar_vol }

/-- Return dict of `compute_factors`. -/
structure FactorOutput where
  LHF : ℝ
  COLD : ℝ
  lhf_good_score : ℝ
  cold_bad_score : ℝ
  absorption : Bool
  flow_cons : ℚ

/-- Source `compute_factors(minute, roll)`: derives impact / absorption /
flow-consistency, computes the eight robust z-scores against the current
window, forms both weighted scores, squashes them to (0,100), and only
then pushes the minute's raw metrics into the window.  The updated window
is returned as the second component. -/
noncomputable def compute_factors (m : Minute) (roll : Rolling30m) :
    FactorOutput × Rolling30m :=
  let impact := |m.ret_1m| / (m.dollar_vol + EPS)
  let absorption := decide ((11 / 20 : ℚ) < |m.cvd_delta| / (m.qty_total + EPS)
    ∧ 0 < m.dollar_vol ∧ |m.ret_1m| < 3 / 10000)
  let flow_cons : ℚ :=
    if m.ret_1m = 0 ∨ m.cvd_delta = 0 then 1 / 2
    else if (0 < m.ret_1m ∧ 0 < m.cvd_delta) ∨ (m.ret_1m < 0 ∧ m.cvd_delta < 0) then 1
    else 0
  let z_impact := robust_z impact roll.impact
  let z_spread := robust_z m.spread_median roll.spread_med
  let z_spread_tail := robust_z m.spread_p95 roll.spread_p95
  let z_spike := robust_z m.spike_ratio roll.spike_ratio
  let z_depth := robust_zR (Real.log ((m.depth_usd_median : ℝ) + 1))
    (roll.depth_med.map fun v => Real.log ((v : ℝ) + 1) + (EPS : ℝ))
  let z_depth_p10 := robust_zR (Real.log ((m.depth_usd_p10 : ℝ) + 1))
    (roll.depth_p10.map fun v => Real.log ((v : ℝ) + 1) + (EPS : ℝ))
  let z_res := robust_z m.depth_recover roll.depth_recover
  let z_dv := robust_zR (Real.log ((m.dollar_vol : ℝ) + 1))
    (roll.dollar_vol.map fun v => Real.log ((v : ℝ) + 1) + (EPS : ℝ))
  let lhf_good : ℝ :=
    (30 / 100 : ℝ) * (-(z_impact : ℝ))
    + (18 / 100) * (-(z_spread : ℝ))
    + (10 / 100) * (-(z_spread_tail : ℝ))
    + (7 / 100) * (-(z_spike : ℝ))
    + (20 / 100) * z_depth
    + (10 / 100) * z_depth_p10
    + (10 / 100) * (z_res : ℝ)
    + (5 / 100) * (2 * (flow_cons : ℝ) - 1)
    + (10 / 100) * (-(if absorption then (1 : ℝ) else 0))
  let lhf := 100 * sigmoid ((12 / 10) * lhf_good)
  let cold_bad : ℝ :=
    (28 / 100 : ℝ) * (-z_dv)
    + (18 / 100) * (-z_depth)
    + (12 / 100) * (-z_depth_p10)
    + (15 / 100) * (z_spread : ℝ)
    + (7 / 100) * (z_spread_tail : ℝ)
    + (6 / 100) * (z_spike : ℝ)
    + (10 / 100) * (z_impact : ℝ)
    + (4 / 100) * (-(z_res : ℝ))
    + (5 / 100) * (if absorption then (1 : ℝ) else 0)
  let cold := 100 * sigmoid ((12 / 10) * cold_bad)
  let roll2 := roll.push
    { impact := impact
      spread_median := m.spread_median
      spread_p95 := m.spread_p95
      spike_ratio := m.spike_ratio
      depth_usd_median := m.depth_usd_median
      depth_usd_p10 := m.depth_usd_p10
      depth_recover := m.depth_recover
      dollar_vol := m.dollar_vol }
  ({ LHF := lhf
     COLD := cold
     lhf_good_score := lhf_good
     cold_bad_score := cold_bad
     absorption := absorption
     flow_cons := flow_cons }, roll2)

/-- The window-state effect of `compute_factors` in isolation (used by
the computable driver embedding; it agrees definitionally with
`(compute_factors m roll).2`). -/
def compute_factors_roll (m : Minute) (roll : Rolling30m) : Rolling30m :=
  roll.push (rollMetricsOf m)

/-! ## Websocket driver (`run`): minute-boundary state machine -/

/-- One incoming stream message, tagged by stream kind, carrying the
event timestamp `E` in milliseconds. -/
inductive Tick where
  | quote (ts_ms : ℤ) (bid ask : ℚ)
  | depth (ts_ms : ℤ) (bids asks : List (ℚ × ℚ))
  | trade (ts_ms : ℤ) (px qty : ℚ) (is_buyer_maker : Bool)
deriving DecidableEq

/-- Event timestamp of a tick. -/
def Tick.ts_ms : Tick → ℤ
  | .quote ts _ _ => ts
  | .depth ts _ _ => ts
  | .trade ts _ _ _ => ts

/-- Source `floor_minute_ms(ts) = (ts // 60000) * 60000` (Python floor division,
hence `Int.fdiv`). -/
def floor_minute_ms (ts : ℤ) : ℤ := Int.fdiv ts 60000 * 60000

/-- The driver's mutable state: the three accumulators, the rolling
window and `current_minute_ms`.  The source variable `at` is named
`atAgg` here because `at` is reserved in Lean. -/
structure DriverState where
  bt : BookTickerMinuteAgg
  dp : Depth10MinuteAgg
  atAgg : AggTradeMinuteAgg
  roll : Rolling30m
  current_minute_ms : Option ℤ
deriving DecidableEq

/-- The "Handle current tick update" block of `run`: route the tick to
its accumulator (depth ticks with an empty side are ignored, mirroring
`if bids and asks`). -/
def routeTick (s : DriverState) (t : Tick) : DriverState :=
  match t with
  | .quote _ b a => { s with bt := s.bt.update b a }
  | .trade _ p q mk => { s with atAgg := s.atAgg.update p q mk }
  | .depth _ bids asks =>
      if bids ≠ [] ∧ asks ≠ [] then { s with dp := s.dp.update bids asks } else s

/-- One iteration of the message loop of `run`: on a minute change, close
all three accumulators; when both the bookTicker and depth summaries are
present, build the merged minute dict (tagged with the elapsed minute)
and push its metrics into the rolling window, emitting the minute dict
(the source prints the JSON score record computed from it by
`compute_factors`; the record exists exactly when this summary does);
then switch `current_minute_ms` to the tick's minute and route the
triggering tick into the freshly reset accumulators. -/
def runStep (s0 : DriverState) (t : Tick) : DriverState × Option Minute :=
  let m_ms := floor_minute_ms t.ts_ms
  let cur := s0.current_minute_ms.getD m_ms
  if m_ms ≠ cur then
    let bc := s0.bt.close_minute
    let dc := s0.dp.close_minute
    let ac := s0.atAgg.close_minute
    match bc.1, dc.1 with
    | some b, some d =>
        let ret_1m := b.mid_close / (b.mid_open + EPS) - 1
        let minute : Minute :=
          { minute_ts_ms := cur
            ret_1m := ret_1m
            spread_median := b.spread_median
            spread_p95 := b.spread_p95
            spread_max := b.spread_max
            spike_ratio := b.spike_ratio
            depth_usd_median := d.depth_usd_median
            depth_usd_p10 := d.depth_usd_p10
            depth_usd_min := d.depth_usd_min
            imb_median := d.imb_median
            depth_recover := d.depth_recover
            dollar_vol := ac.1.dollar_vol
            qty_total := ac.1.qty_total
            cvd_delta := ac.1.cvd_delta
            n_trades := ac.1.n_trades }
        (routeTick { bt := bc.2, dp := dc.2, atAgg := ac.2
                     roll := compute_factors_roll minute s0.roll
                     current_minute_ms := some m_ms } t, some minute)
    | _, _ =>
        (routeTick { bt := bc.2, dp := dc.2, atAgg := ac.2
                     roll := s0.roll
                     current_minute_ms := some m_ms } t, none)
  else
    (routeTick { s0 with current_minute_ms := some cur } t, none)

/-! ## Helper lemmas -/

/-- Median absolute deviation from the median, as the spec names it. -/
def MAD (arr : List ℚ) : ℚ := npMedian (arr.map fun v => |v - npMedian arr|)

/-- The effective division guard of `robust_z`: the source adds `EPS` to
the MAD before the `1.4826` scaling, so the guard on the denominator is
`1.4826 * EPS`. -/
def epsRZ : ℚ := (14826 / 10000) * EPS

theorem epsRZ_pos : 0 < epsRZ := by norm_num [epsRZ, EPS]

theorem dequeAppend_length (m : ℕ) (l : List ℚ) (v : ℚ) :
    (dequeAppend m l v).length = min (l.length + 1) m := by
  unfold dequeAppend
  by_cases h : m < (l ++ [v]).length
  · rw [if_pos h, List.length_drop]
    simp only [List.length_append, List.length_singleton] at *
    omega
  · rw [if_neg h]
    simp only [List.length_append, List.length_singleton] at *
    omega

theorem sigmoid_pos (x : ℝ) : 0 < sigmoid x := by
  unfold sigmoid
  have := Real.exp_pos (-x)
  positivity

theorem sigmoid_lt_one (x : ℝ) : sigmoid x < 1 := by
  unfold sigmoid
  have h := Real.exp_pos (-x)
  rw [div_lt_one (by linarith)]
  linarith

theorem sortQ_sorted (l : List ℚ) : (sortQ l).Sorted (· ≤ ·) :=
  List.sorted_insertionSort (· ≤ ·) l

theorem sortQ_perm (l : List ℚ) : List.Perm (sortQ l) l :=
  List.perm_insertionSort (· ≤ ·) l

theorem sortQ_length (l : List ℚ) : (sortQ l).length = l.length :=
  (sortQ_perm l).length_eq

theorem mem_sortQ {l : List ℚ} {x : ℚ} : x ∈ sortQ l ↔ x ∈ l :=
  (sortQ_perm l).mem_iff

theorem sorted_getD_mono {s : List ℚ} (hs : s.Sorted (· ≤ ·)) {a b : ℕ}
    (hab : a ≤ b) (hb : b < s.length) : s.getD a 0 ≤ s.getD b 0 := by
  have ha : a < s.length := lt_of_le_of_lt hab hb
  rw [List.getD_eq_getElem s 0 ha, List.getD_eq_getElem s 0 hb]
  rcases eq_or_lt_of_le hab with rfl | hlt
  · exact le_refl _
  · exact List.pairwise_iff_getElem.mp hs a b ha hb hlt

theorem interp_index_facts {s : List ℚ} {h : ℚ} (h0 : 0 ≤ h)
    (hub : h ≤ (s.length : ℚ) - 1) :
    (⌊h⌋).toNat < s.length
    ∧ min ((⌊h⌋).toNat + 1) (s.length - 1) < s.length
    ∧ (⌊h⌋).toNat ≤ min ((⌊h⌋).toNat + 1) (s.length - 1)
    ∧ 0 ≤ h - (((⌊h⌋).toNat : ℕ) : ℚ) ∧ h - (((⌊h⌋).toNat : ℕ) : ℚ) ≤ 1 := by
  have hn1 : (1 : ℚ) ≤ (s.length : ℚ) := by linarith
  have hn : 1 ≤ s.length := by exact_mod_cast hn1
  have hfl0 : 0 ≤ ⌊h⌋ := Int.floor_nonneg.mpr h0
  have hcastq : (((⌊h⌋).toNat : ℕ) : ℚ) = ((⌊h⌋ : ℤ) : ℚ) := by
    rw [← Int.cast_natCast, Int.toNat_of_nonneg hfl0]
  have hrw : ((s.length : ℚ) - 1) = (((s.length : ℤ) - 1 : ℤ) : ℚ) := by push_cast; ring
  have hfl_le : ⌊h⌋ ≤ (s.length : ℤ) - 1 := by
    have h2 := Int.floor_le_floor hub
    rwa [hrw, Int.floor_intCast] at h2
  refine ⟨by omega, by omega, by omega, ?_, ?_⟩
  · have := Int.floor_le h
    rw [hcastq]
    linarith
  · have := Int.lt_floor_add_one h
    rw [hcastq]
    push_cast at this ⊢
    linarith

theorem interpSorted_bounds {s : List ℚ} (hs : s.Sorted (· ≤ ·)) {h : ℚ}
    (h0 : 0 ≤ h) (hub : h ≤ (s.length : ℚ) - 1) :
    s.getD (⌊h⌋).toNat 0 ≤ interpSorted s h
    ∧ interpSorted s h ≤ s.getD (min ((⌊h⌋).toNat + 1) (s.length - 1)) 0 := by
  obtain ⟨hi, hj, hij, hf0, hf1⟩ := interp_index_facts h0 hub
  have hab : s.getD (⌊h⌋).toNat 0 ≤ s.getD (min ((⌊h⌋).toNat + 1) (s.length - 1)) 0 :=
    sorted_getD_mono hs hij hj
  unfold interpSorted
  constructor
  · nlinarith [mul_nonneg hf0 (sub_nonneg.mpr hab)]
  · nlinarith [mul_nonneg (by linarith : (0 : ℚ) ≤ 1 - (h - (((⌊h⌋).toNat : ℕ) : ℚ)))
      (sub_nonneg.mpr hab)]

theorem interpSorted_mono {s : List ℚ} (hs : s.Sorted (· ≤ ·)) {h1 h2 : ℚ}
    (h0 : 0 ≤ h1) (h12 : h1 ≤ h2) (hub : h2 ≤ (s.length : ℚ) - 1) :
    interpSorted s h1 ≤ interpSorted s h2 := by
  have h02 : 0 ≤ h2 := le_trans h0 h12
  have hub1 : h1 ≤ (s.length : ℚ) - 1 := le_trans h12 hub
  obtain ⟨hi1, hj1, hij1, hf01, hf11⟩ := interp_index_facts h0 hub1
  obtain ⟨hi2, hj2, hij2, hf02, hf12⟩ := interp_index_facts h02 hub
  by_cases heq : (⌊h1⌋).toNat = (⌊h2⌋).toNat
  · have hab : s.getD (⌊h1⌋).toNat 0 ≤ s.getD (min ((⌊h1⌋).toNat + 1) (s.length - 1)) 0 :=
      sorted_getD_mono hs hij1 hj1
    unfold interpSorted
    rw [heq] at hab ⊢
    nlinarith [mul_nonneg (sub_nonneg.mpr h12) (sub_nonneg.mpr hab)]
  · have hfl12 : ⌊h1⌋ ≤ ⌊h2⌋ := Int.floor_le_floor h12
    have hlt : (⌊h1⌋).toNat < (⌊h2⌋).toNat := by
      have h1n : 0 ≤ ⌊h1⌋ := Int.floor_nonneg.mpr h0
      omega
    have up1 := (interpSorted_bounds hs h0 hub1).2
    have lo2 := (interpSorted_bounds hs h02 hub).1
    have hmid : s.getD (min ((⌊h1⌋).toNat + 1) (s.length - 1)) 0
        ≤ s.getD (⌊h2⌋).toNat 0 := sorted_getD_mono hs (by omega) hi2
    linarith

theorem foldl_max_facts (l : List ℚ) : ∀ a : ℚ,
    a ≤ l.foldl max a ∧ ∀ x ∈ l, x ≤ l.foldl max a := by
  induction l with
  | nil => exact fun a => ⟨le_refl a, by simp⟩
  | cons b t ih =>
      intro a
      have h := ih (max a b)
      refine ⟨le_trans (le_max_left a b) h.1, ?_⟩
      intro x hx
      rcases List.mem_cons.mp hx with rfl | hxt
      · exact le_trans (le_max_right a x) h.1
      · exact h.2 x hxt

theorem le_npMax_of_mem {l : List ℚ} {x : ℚ} (hx : x ∈ l) : x ≤ npMax l := by
  match l with
  | [] => cases hx
  | b :: t =>
      rcases List.mem_cons.mp hx with rfl | hxt
      · exact (foldl_max_facts t x).1
      · exact (foldl_max_facts t b).2 x hxt

theorem length_pos_q {l : List ℚ} (hne : l ≠ []) : (0 : ℚ) ≤ (l.length : ℚ) - 1 := by
  have : 1 ≤ l.length := List.length_pos.mpr hne
  have h1 : (1 : ℚ) ≤ (l.length : ℚ) := by exact_mod_cast this
  linarith

theorem npQuantile_mono (l : List ℚ) (hne : l ≠ []) {q1 q2 : ℚ}
    (h0 : 0 ≤ q1) (h12 : q1 ≤ q2) (h1 : q2 ≤ 1) :
    npQuantile l q1 ≤ npQuantile l q2 := by
  have hlen1 := length_pos_q hne
  unfold npQuantile
  apply interpSorted_mono (sortQ_sorted l)
  · exact mul_nonneg h0 hlen1
  · exact mul_le_mul_of_nonneg_right h12 hlen1
  · rw [sortQ_length]
    nlinarith

theorem npQuantile_le_npMax (l : List ℚ) (hne : l ≠ []) {q : ℚ}
    (h0 : 0 ≤ q) (h1 : q ≤ 1) : npQuantile l q ≤ npMax l := by
  have hlen1 := length_pos_q hne
  have hq0 : 0 ≤ q * ((l.length : ℚ) - 1) := mul_nonneg h0 hlen1
  have hqub : q * ((l.length : ℚ) - 1) ≤ ((sortQ l).length : ℚ) - 1 := by
    rw [sortQ_length]; nlinarith
  have hup := (interpSorted_bounds (sortQ_sorted l) hq0 hqub).2
  obtain ⟨-, hj, -, -, -⟩ := interp_index_facts hq0 hqub
  refine le_trans hup ?_
  apply le_npMax_of_mem
  rw [← mem_sortQ]
  rw [List.getD_eq_getElem (sortQ l) 0 hj]
  exact List.getElem_mem hj

/-! ## Claim theorems -/

/-- C3: for histories of at least 5 entries, `robust_z(x, history)` is
`(x − median(history)) / (1.4826 × MAD(history) + ε)` where `MAD` is the
median absolute deviation from the median and `ε = 1.4826 · EPS` is a
small positive constant guarding the division. -/
theorem robust_z_formula (x : ℚ) (arr : List ℚ) (h : 5 ≤ arr.length) :
    robust_z x arr = (x - npMedian arr) / ((14826 / 10000) * MAD arr + epsRZ)
    ∧ 0 < epsRZ := by
  refine ⟨?_, epsRZ_pos⟩
  unfold robust_z
  rw [if_neg (by omega)]
  unfold MAD epsRZ
  ring

/-- Witness for C3 at the concrete history `[1,2,3,4,5]`, probe `10`. -/
theorem robust_z_formula_witness :
    5 ≤ ([1, 2, 3, 4, 5] : List ℚ).length
    ∧ (robust_z 10 [1, 2, 3, 4, 5]
        = (10 - npMedian [1, 2, 3, 4, 5]) / ((14826 / 10000) * MAD [1, 2, 3, 4, 5] + epsRZ)
      ∧ 0 < epsRZ) :=
  ⟨by decide, robust_z_formula 10 [1, 2, 3, 4, 5] (by decide)⟩

/-- C4: for histories with fewer than 5 entries (including the empty
history), `robust_z` returns exactly 0 regardless of the probe. -/
theorem robust_z_warmup (x : ℚ) (arr : List ℚ) (h : arr.length < 5) :
    robust_z x arr = 0 := by
  unfold robust_z
  rw [if_pos h]

/-- Witness for C4 at the empty history, probe `7`. -/
theorem robust_z_warmup_witness :
    ([] : List ℚ).length < 5 ∧ robust_z 7 [] = 0 :=
  ⟨by decide, robust_z_warmup 7 [] (by decide)⟩

/-- C7: the trade accumulator's `close_minute` always returns a summary
(its return type is not optional); after any sequence of trades the
summary's `cvd_delta` is `buy_qty − sell_qty`, the state is reset to the
all-zero initial state, and closing the zero-trade state yields the
all-zero summary. -/
theorem aggtrade_close_total (ts : List (ℚ × ℚ × Bool)) :
    ((ts.foldl (fun st u => st.update u.1 u.2.1 u.2.2) AggTradeMinuteAgg.init).close_minute).1.cvd_delta
      = ((ts.foldl (fun st u => st.update u.1 u.2.1 u.2.2) AggTradeMinuteAgg.init).close_minute).1.buy_qty
        - ((ts.foldl (fun st u => st.update u.1 u.2.1 u.2.2) AggTradeMinuteAgg.init).close_minute).1.sell_qty
    ∧ ((ts.foldl (fun st u => st.update u.1 u.2.1 u.2.2) AggTradeMinuteAgg.init).close_minute).2
      = AggTradeMinuteAgg.init
    ∧ (AggTradeMinuteAgg.init.close_minute).1
      = { dollar_vol := 0, buy_qty := 0, sell_qty := 0, cvd_delta := 0
          qty_total := 0, n_trades := 0 } := by
  refine ⟨rfl, rfl, ?_⟩
  show ({ dollar_vol := (0 : ℚ), buy_qty := 0, sell_qty := 0, cvd_delta := 0 - 0
          qty_total := 0, n_trades := ((0 : ℕ) : ℚ) } : AggTradeOut) = _
  norm_num

/-- C2: `compute_factors` computes both pre-squash composite scores from
the rolling window as it was at entry (each of the eight robust z-scores
reads the pre-push ring), pushes exactly one value into each of the
eight metric rings only after both scores are formed, and returns the
pushed window.  Each post-push ring length is `min (old+1) maxlen`. -/
theorem compute_factors_no_lookahead (m : Minute) (roll : Rolling30m) :
    (compute_factors m roll).1.lhf_good_score = lhf_goodOf m roll
    ∧ (compute_factors m roll).1.cold_bad_score = cold_badOf m roll
    ∧ (compute_factors m roll).1.LHF = 100 * sigmoid ((12 / 10) * lhf_goodOf m roll)
    ∧ (compute_factors m roll).1.COLD = 100 * sigmoid ((12 / 10) * cold_badOf m roll)
    ∧ (compute_factors m roll).2 = roll.push (rollMetricsOf m)
    ∧ (compute_factors m roll).2.impact.length = min (roll.impact.length + 1) roll.maxlen
    ∧ (compute_factors m roll).2.spread_med.length = min (roll.spread_med.length + 1) roll.maxlen
    ∧ (compute_factors m roll).2.spread_p95.length = min (roll.spread_p95.length + 1) roll.maxlen
    ∧ (compute_factors m roll).2.spike_ratio.length = min (roll.spike_ratio.length + 1) roll.maxlen
    ∧ (compute_factors m roll).2.depth_med.length = min (roll.depth_med.length + 1) roll.maxlen
    ∧ (compute_factors m roll).2.depth_p10.length = min (roll.depth_p10.length + 1) roll.maxlen
    ∧ (compute_factors m roll).2.depth_recover.length = min (roll.depth_recover.length + 1) roll.maxlen
    ∧ (compute_factors m roll).2.dollar_vol.length = min (roll.dollar_vol.length + 1) roll.maxlen :=
  ⟨rfl, rfl, rfl, rfl, rfl,
   dequeAppend_length _ _ _, dequeAppend_length _ _ _, dequeAppend_length _ _ _,
   dequeAppend_length _ _ _, dequeAppend_length _ _ _, dequeAppend_length _ _ _,
   dequeAppend_length _ _ _, dequeAppend_length _ _ _⟩

/-- C8: for every minute summary and window state, both final scores of
`compute_factors` lie in [0,100] (all embedded values are finite by
construction, so the claim's finiteness proviso is automatic). -/
theorem factor_scores_bounded (m : Minute) (roll : Rolling30m) :
    0 ≤ (compute_factors m roll).1.LHF ∧ (compute_factors m roll).1.LHF ≤ 100
    ∧ 0 ≤ (compute_factors m roll).1.COLD ∧ (compute_factors m roll).1.COLD ≤ 100 := by
  have hL : (compute_factors m roll).1.LHF
      = 100 * sigmoid ((12 / 10) * lhf_goodOf m roll) := rfl
  have hC : (compute_factors m roll).1.COLD
      = 100 * sigmoid ((12 / 10) * cold_badOf m roll) := rfl
  rw [hL, hC]
  have l1 := sigmoid_pos ((12 / 10) * lhf_goodOf m roll)
  have l2 := sigmoid_lt_one ((12 / 10) * lhf_goodOf m roll)
  have c1 := sigmoid_pos ((12 / 10) * cold_badOf m roll)
  have c2 := sigmoid_lt_one ((12 / 10) * cold_badOf m roll)
  refine ⟨by linarith, by linarith, by linarith, by linarith⟩

theorem sortQ_map_add (c : ℚ) (l : List ℚ) :
    sortQ (l.map (· + c)) = (sortQ l).map (· + c) := by
  have hsorted : ((sortQ l).map (· + c)).Sorted (· ≤ ·) := by
    rw [List.Sorted, List.pairwise_map]
    exact (sortQ_sorted l).imp (fun hab => by simpa using hab)
  exact List.eq_of_perm_of_sorted ((sortQ_perm _).trans ((sortQ_perm l).map _).symm)
    (sortQ_sorted _) hsorted

theorem interpSorted_map_add (c : ℚ) (s : List ℚ) {h : ℚ} (h0 : 0 ≤ h)
    (hub : h ≤ (s.length : ℚ) - 1) :
    interpSorted (s.map (· + c)) h = interpSorted s h + c := by
  obtain ⟨hi, hj, -, -, -⟩ := interp_index_facts h0 hub
  have hi2 : (⌊h⌋).toNat < (s.map (· + c)).length := by rwa [List.length_map]
  have hj2 : min ((⌊h⌋).toNat + 1) (s.length - 1) < (s.map (· + c)).length := by
    rwa [List.length_map]
  unfold interpSorted
  rw [List.length_map]
  rw [List.getD_eq_getElem (s.map (· + c)) 0 hi2,
    List.getD_eq_getElem (s.map (· + c)) 0 hj2,
    List.getElem_map, List.getElem_map,
    List.getD_eq_getElem s 0 hi, List.getD_eq_getElem s 0 hj]
  ring

theorem npMedian_map_add (c : ℚ) (l : List ℚ) (hne : l ≠ []) :
    npMedian (l.map (· + c)) = npMedian l + c := by
  unfold npMedian npQuantile
  rw [sortQ_map_add, List.length_map]
  apply interpSorted_map_add
  · have := length_pos_q hne
    nlinarith
  · rw [sortQ_length]
    have := length_pos_q hne
    nlinarith

/-- C5: `robust_z` is invariant under adding the same constant to the
probe and to every element of the history (shift invariance of the
median/MAD-based z-score).  Stated for all probes, constants and
histories, short histories included. -/
theorem robust_z_shift (x c : ℚ) (arr : List ℚ) :
    robust_z (x + c) (arr.map (· + c)) = robust_z x arr := by
  by_cases hlen : arr.length < 5
  · rw [robust_z, robust_z, if_pos (by rwa [List.length_map]), if_pos hlen]
  · have hne : arr ≠ [] := by
      intro h
      subst h
      simp at hlen
    rw [robust_z, robust_z, if_neg (by rwa [List.length_map]), if_neg hlen]
    rw [npMedian_map_add c arr hne]
    have habs : (arr.map (· + c)).map (fun v => |v - (npMedian arr + c)|)
        = arr.map (fun v => |v - npMedian arr|) := by
      rw [List.map_map]
      congr 1
      funext v
      simp only [Function.comp_apply]
      congr 1
      ring
    rw [habs]
    congr 1
    ring

/-! ### C6: quote accumulator close-out ordering -/

theorem btFold_preserve (l : List (ℚ × ℚ)) : ∀ st : BookTickerMinuteAgg,
    st.spreads ≠ [] → st.first_mid.isSome → st.last_mid.isSome →
    (l.foldl (fun s p => s.update p.1 p.2) st).spreads ≠ []
    ∧ (l.foldl (fun s p => s.update p.1 p.2) st).first_mid.isSome
    ∧ (l.foldl (fun s p => s.update p.1 p.2) st).last_mid.isSome := by
  induction l with
  | nil => exact fun st h1 h2 h3 => ⟨h1, h2, h3⟩
  | cons u t ih =>
      intro st _ _ _
      rw [List.foldl_cons]
      exact ih _ (by simp [BookTickerMinuteAgg.update])
        (by simp [BookTickerMinuteAgg.update]) (by simp [BookTickerMinuteAgg.update])

theorem bt_close_of_shape {s : BookTickerMinuteAgg} {a : ℚ} {as : List ℚ} {fm lm : ℚ}
    (hsp : s.spreads = a :: as) (hfm : s.first_mid = some fm) (hlm : s.last_mid = some lm) :
    (s.close_minute).1 = some
      { mid_open := fm
        mid_close := lm
        spread_median := npMedian (a :: as)
        spread_p95 := npQuantile (a :: as) (95 / 100)
        spread_max := npMax (a :: as)
        spike_ratio := npMax (a :: as) / (npMedian (a :: as) + EPS)
        n_updates_bt := ((a :: as).length : ℚ) } := by
  obtain ⟨sp, f, l⟩ := s
  dsimp only at hsp hfm hlm
  subst hsp hfm hlm
  rfl

/-- C6: over any non-empty same-minute sequence of quote updates, the
quote accumulator closes to a summary with
`spread_median ≤ spread_p95 ≤ spread_max`, the p95 being the
linear-interpolated 0.95 quantile of the collected relative spreads, and
`spike_ratio` is `spread_max` divided by the `EPS`-guarded
`spread_median` (the source's epsilon-guarded form of
spread_max/spread_median). -/
theorem bookticker_close_ordering (us : List (ℚ × ℚ)) (hne : us ≠ []) :
    ∃ out : BookTickerOut,
      ((us.foldl (fun st p => st.update p.1 p.2) BookTickerMinuteAgg.init).close_minute).1
        = some out
      ∧ out.spread_p95 ≤ out.spread_max
      ∧ out.spread_median ≤ out.spread_p95
      ∧ out.spike_ratio = out.spread_max / (out.spread_median + EPS) := by
  obtain ⟨u, rest, rfl⟩ := List.exists_cons_of_ne_nil hne
  rw [List.foldl_cons]
  obtain ⟨h1, h2, h3⟩ := btFold_preserve rest (BookTickerMinuteAgg.init.update u.1 u.2)
    (by simp [BookTickerMinuteAgg.update, BookTickerMinuteAgg.init])
    (by simp [BookTickerMinuteAgg.update, BookTickerMinuteAgg.init])
    (by simp [BookTickerMinuteAgg.update, BookTickerMinuteAgg.init])
  obtain ⟨a, as, hsp⟩ := List.exists_cons_of_ne_nil h1
  obtain ⟨fm, hfm⟩ := Option.isSome_iff_exists.mp h2
  obtain ⟨lm, hlm⟩ := Option.isSome_iff_exists.mp h3
  have hanene : (a :: as) ≠ [] := List.cons_ne_nil a as
  refine ⟨_, bt_close_of_shape hsp hfm hlm, ?_, ?_, rfl⟩
  · exact npQuantile_le_npMax _ hanene (by norm_num) (by norm_num)
  · show npMedian (a :: as) ≤ npQuantile (a :: as) (95 / 100)
    unfold npMedian
    exact npQuantile_mono _ hanene (by norm_num) (by norm_num) (by norm_num)

/-- Witness for C6 at a single quote update `(bid, ask) = (100, 101)`. -/
theorem bookticker_close_ordering_witness :
    ([((100 : ℚ), (101 : ℚ))] ≠ [])
    ∧ ∃ out : BookTickerOut,
      (([((100 : ℚ), (101 : ℚ))].foldl (fun st p => st.update p.1 p.2)
          BookTickerMinuteAgg.init).close_minute).1 = some out
      ∧ out.spread_p95 ≤ out.spread_max
      ∧ out.spread_median ≤ out.spread_p95
      ∧ out.spike_ratio = out.spread_max / (out.spread_median + EPS) :=
  ⟨by decide, bookticker_close_ordering [((100 : ℚ), (101 : ℚ))] (by decide)⟩

/-! ### C9: depth recovery ratio -/

/-- Total notional of one depth update under the level cap `nl`,
as `Depth10MinuteAgg.update` computes it. -/
def depthTotalOf (nl : ℕ) (u : List (ℚ × ℚ) × List (ℚ × ℚ)) : ℚ :=
  sum_usd (u.1.take nl) + sum_usd (u.2.take nl)

theorem dpFold_n (l : List (List (ℚ × ℚ) × List (ℚ × ℚ))) :
    ∀ st : Depth10MinuteAgg,
      (l.foldl (fun s v => s.update v.1 v.2) st).n = st.n := by
  induction l with
  | nil => exact fun _ => rfl
  | cons u t ih =>
      intro st
      rw [List.foldl_cons, ih]
      rfl

theorem dpFold_first (l : List (List (ℚ × ℚ) × List (ℚ × ℚ))) :
    ∀ (st : Depth10MinuteAgg) (v : ℚ), st.first_depth = some v →
      (l.foldl (fun s u => s.update u.1 u.2) st).first_depth = some v := by
  induction l with
  | nil => exact fun _ _ h => h
  | cons u t ih =>
      intro st v h
      rw [List.foldl_cons]
      apply ih
      show some ((st.first_depth).getD _) = some v
      rw [h]
      rfl

theorem dpFold_last (l : List (List (ℚ × ℚ) × List (ℚ × ℚ))) (hne : l ≠ []) :
    ∀ st : Depth10MinuteAgg,
      (l.foldl (fun s v => s.update v.1 v.2) st).last_depth
        = some (depthTotalOf st.n (l.getLast hne)) := by
  induction l with
  | nil => exact absurd rfl hne
  | cons u t ih =>
      intro st
      rw [List.foldl_cons]
      by_cases ht : t = []
      · subst ht
        rfl
      · rw [ih ht, List.getLast_cons ht]
        have hn : (st.update u.1 u.2).n = st.n := rfl
        rw [hn]

theorem dpFold_depthusd_ne (l : List (List (ℚ × ℚ) × List (ℚ × ℚ))) :
    ∀ st : Depth10MinuteAgg, st.depth_usd ≠ [] →
      (l.foldl (fun s u => s.update u.1 u.2) st).depth_usd ≠ [] := by
  induction l with
  | nil => exact fun _ h => h
  | cons u t ih =>
      intro st _
      rw [List.foldl_cons]
      exact ih _ (by simp [Depth10MinuteAgg.update])

theorem dp_close_of_shape {s : Depth10MinuteAgg} {a : ℚ} {as : List ℚ} {fd ld : ℚ}
    (hdu : s.depth_usd = a :: as) (hfd : s.first_depth = some fd)
    (hld : s.last_depth = some ld) :
    (s.close_minute).1 = some
      { depth_usd_median := npMedian (a :: as)
        depth_usd_p10 := npQuantile (a :: as) (10 / 100)
        depth_usd_min := npMin (a :: as)
        imb_median := npMedian s.imb
        depth_recover := (ld + EPS) / (fd + EPS)
        n_updates_depth := ((a :: as).length : ℚ) } := by
  obtain ⟨n, du, im, f, l⟩ := s
  dsimp only at hdu hfd hld ⊢
  subst hdu hfd hld
  rfl

/-- C9 counterexample input: a single depth snapshot with one bid level
and one ask level, each of notional 1, so the minute's first and last
totals are both 2. -/
def cexDepthState : Depth10MinuteAgg :=
  (Depth10MinuteAgg.init 10).update [(1, 1)] [(1, 1)]

/-- C9, counterexample to the claim as stated: on a minute whose first
and last depth totals both equal 2, the code's `depth_recover` is
exactly 1 (it computes `(last+EPS)/(first+EPS)`), whereas the claimed
formula `last/(first+ε)` evaluates to `2/(2+EPS) ≠ 1` (and `t/(t+ε) < 1`
for every positive ε, so no choice of ε repairs the claimed formula). -/
theorem depth_recovery_cex :
    ((cexDepthState.close_minute).1.map DepthOut.depth_recover) = some 1
    ∧ (2 : ℚ) / (2 + EPS) ≠ 1 := by
  constructor
  · have h := @dp_close_of_shape cexDepthState
      (sum_usd (List.take 10 [((1 : ℚ), (1 : ℚ))])
        + sum_usd (List.take 10 [((1 : ℚ), (1 : ℚ))])) []
      (sum_usd (List.take 10 [((1 : ℚ), (1 : ℚ))])
        + sum_usd (List.take 10 [((1 : ℚ), (1 : ℚ))]))
      (sum_usd (List.take 10 [((1 : ℚ), (1 : ℚ))])
        + sum_usd (List.take 10 [((1 : ℚ), (1 : ℚ))]))
      rfl rfl rfl
    rw [h, Option.map_some']
    congr 1
    show (sum_usd (List.take 10 [((1 : ℚ), (1 : ℚ))])
        + sum_usd (List.take 10 [((1 : ℚ), (1 : ℚ))]) + EPS)
      / (sum_usd (List.take 10 [((1 : ℚ), (1 : ℚ))])
        + sum_usd (List.take 10 [((1 : ℚ), (1 : ℚ))]) + EPS) = 1
    norm_num [sum_usd, EPS]
  · rw [EPS]
    norm_num

/-- C9 as amended: the depth accumulator's `close` on a non-empty minute
reports `depth_recover = (last_total + ε) / (first_total + ε)` — the
source adds `EPS` to the numerator as well as to the denominator. -/
theorem depth_recovery_formula (us : List (List (ℚ × ℚ) × List (ℚ × ℚ)))
    (hne : us ≠ []) :
    ∃ out : DepthOut,
      ((us.foldl (fun st u => st.update u.1 u.2) (Depth10MinuteAgg.init 10)).close_minute).1
        = some out
      ∧ out.depth_recover
        = (depthTotalOf 10 (us.getLast hne) + EPS) / (depthTotalOf 10 (us.head hne) + EPS) := by
  obtain ⟨u, rest, rfl⟩ := List.exists_cons_of_ne_nil hne
  have hfirst : ((u :: rest).foldl (fun st v => st.update v.1 v.2)
      (Depth10MinuteAgg.init 10)).first_depth = some (depthTotalOf 10 u) := by
    rw [List.foldl_cons]
    exact dpFold_first rest _ _ rfl
  have hlast := dpFold_last (u :: rest) hne (Depth10MinuteAgg.init 10)
  have hdune : ((u :: rest).foldl (fun st v => st.update v.1 v.2)
      (Depth10MinuteAgg.init 10)).depth_usd ≠ [] := by
    rw [List.foldl_cons]
    exact dpFold_depthusd_ne rest _ (by simp [Depth10MinuteAgg.update, Depth10MinuteAgg.init])
  obtain ⟨a, as, hdu⟩ := List.exists_cons_of_ne_nil hdune
  refine ⟨_, dp_close_of_shape hdu hfirst hlast, ?_⟩
  show (depthTotalOf (Depth10MinuteAgg.init 10).n ((u :: rest).getLast hne) + EPS)
      / (depthTotalOf 10 u + EPS) = _
  rfl

/-- Witness for the amended C9 at the single-update minute used by the
counterexample. -/
theorem depth_recovery_formula_witness :
    ([([((1 : ℚ), (1 : ℚ))], [((1 : ℚ), (1 : ℚ))])] ≠ [])
    ∧ ∃ out : DepthOut,
      (([([((1 : ℚ), (1 : ℚ))], [((1 : ℚ), (1 : ℚ))])].foldl
          (fun st u => st.update u.1 u.2) (Depth10MinuteAgg.init 10)).close_minute).1
        = some out
      ∧ out.depth_recover
        = (depthTotalOf 10 (([([((1 : ℚ), (1 : ℚ))], [((1 : ℚ), (1 : ℚ))])]).getLast (by decide)) + EPS)
          / (depthTotalOf 10 (([([((1 : ℚ), (1 : ℚ))], [((1 : ℚ), (1 : ℚ))])]).head (by decide)) + EPS) := by
  refine ⟨by decide, ?_⟩
  obtain ⟨out, h1, h2⟩ := depth_recovery_formula
    [([((1 : ℚ), (1 : ℚ))], [((1 : ℚ), (1 : ℚ))])] (by decide)
  exact ⟨out, h1, h2⟩

/-! ### C1 / C10: minute-boundary driver behaviour -/

theorem bt_close_reset (s : BookTickerMinuteAgg) :
    (s.close_minute).2 = BookTickerMinuteAgg.init := by
  obtain ⟨sp, f, l⟩ := s
  cases sp <;> cases f <;> cases l <;> rfl

theorem dp_close_reset (s : Depth10MinuteAgg) :
    (s.close_minute).2 = Depth10MinuteAgg.init s.n := by
  obtain ⟨n, du, im, f, l⟩ := s
  cases du <;> cases f <;> cases l <;> rfl

theorem at_close_reset (s : AggTradeMinuteAgg) :
    (s.close_minute).2 = AggTradeMinuteAgg.init := rfl

/-- The reference post-boundary state: all three accumulators reset and
`current_minute_ms` switched to the triggering tick's minute, before the
tick itself is routed. -/
def resetState (s : DriverState) (t : Tick) : DriverState :=
  { bt := BookTickerMinuteAgg.init
    dp := Depth10MinuteAgg.init s.dp.n
    atAgg := AggTradeMinuteAgg.init
    roll := s.roll
    current_minute_ms := some (floor_minute_ms t.ts_ms) }

theorem routeTick_fields (x y : DriverState) (t : Tick)
    (hbt : x.bt = y.bt) (hdp : x.dp = y.dp) (hat : x.atAgg = y.atAgg) :
    (routeTick x t).bt = (routeTick y t).bt
    ∧ (routeTick x t).dp = (routeTick y t).dp
    ∧ (routeTick x t).atAgg = (routeTick y t).atAgg := by
  cases t with
  | quote ts b a =>
      exact ⟨by simp [routeTick, hbt], by simp [routeTick, hdp], by simp [routeTick, hat]⟩
  | trade ts p q mk =>
      exact ⟨by simp [routeTick, hbt], by simp [routeTick, hdp], by simp [routeTick, hat]⟩
  | depth ts bids asks =>
      by_cases hc : bids ≠ [] ∧ asks ≠ [] <;>
        exact ⟨by simp [routeTick, hc, hbt], by simp [routeTick, hc, hdp],
          by simp [routeTick, hc, hat]⟩

theorem routeTick_current (x : DriverState) (t : Tick) :
    (routeTick x t).current_minute_ms = x.current_minute_ms := by
  cases t with
  | quote ts b a => rfl
  | trade ts p q mk => rfl
  | depth ts bids asks =>
      by_cases hc : bids ≠ [] ∧ asks ≠ [] <;> simp [routeTick, hc]

theorem runStep_boundary (s : DriverState) (t : Tick) (m : ℤ)
    (hcur : s.current_minute_ms = some m) (hne : floor_minute_ms t.ts_ms ≠ m) :
    ((runStep s t).2.isSome ↔ (s.bt.close_minute).1.isSome ∧ (s.dp.close_minute).1.isSome)
    ∧ (runStep s t).1.bt = (routeTick (resetState s t) t).bt
    ∧ (runStep s t).1.dp = (routeTick (resetState s t) t).dp
    ∧ (runStep s t).1.atAgg = (routeTick (resetState s t) t).atAgg
    ∧ (runStep s t).1.current_minute_ms = some (floor_minute_ms t.ts_ms)
    ∧ (∀ mn, (runStep s t).2 = some mn → mn.minute_ts_ms = m) := by
  simp only [runStep, hcur, Option.getD_some]
  rw [if_pos hne]
  have hfields : ∀ r : Rolling30m,
      ({ bt := (s.bt.close_minute).2, dp := (s.dp.close_minute).2
         atAgg := (s.atAgg.close_minute).2, roll := r
         current_minute_ms := some (floor_minute_ms t.ts_ms) } : DriverState).bt
          = (resetState s t).bt
      ∧ ({ bt := (s.bt.close_minute).2, dp := (s.dp.close_minute).2
           atAgg := (s.atAgg.close_minute).2, roll := r
           current_minute_ms := some (floor_minute_ms t.ts_ms) } : DriverState).dp
          = (resetState s t).dp
      ∧ ({ bt := (s.bt.close_minute).2, dp := (s.dp.close_minute).2
           atAgg := (s.atAgg.close_minute).2, roll := r
           current_minute_ms := some (floor_minute_ms t.ts_ms) } : DriverState).atAgg
          = (resetState s t).atAgg := by
    intro r
    exact ⟨bt_close_reset s.bt, dp_close_reset s.dp, at_close_reset s.atAgg⟩
  rcases hb : (s.bt.close_minute).1 with _ | b <;>
    rcases hd : (s.dp.close_minute).1 with _ | d
  · obtain ⟨f1, f2, f3⟩ := routeTick_fields _ _ t (hfields s.roll).1 (hfields s.roll).2.1
      (hfields s.roll).2.2
    exact ⟨by simp, f1, f2, f3, by rw [routeTick_current], by simp⟩
  · obtain ⟨f1, f2, f3⟩ := routeTick_fields _ _ t (hfields s.roll).1 (hfields s.roll).2.1
      (hfields s.roll).2.2
    exact ⟨by simp, f1, f2, f3, by rw [routeTick_current], by simp⟩
  · obtain ⟨f1, f2, f3⟩ := routeTick_fields _ _ t (hfields s.roll).1 (hfields s.roll).2.1
      (hfields s.roll).2.2
    exact ⟨by simp, f1, f2, f3, by rw [routeTick_current], by simp⟩
  · obtain ⟨f1, f2, f3⟩ := routeTick_fields _ _ t
      (hfields (compute_factors_roll _ s.roll)).1
      (hfields (compute_factors_roll _ s.roll)).2.1
      (hfields (compute_factors_roll _ s.roll)).2.2
    refine ⟨by simp, f1, f2, f3, by rw [routeTick_current], ?_⟩
    intro mn hmn
    have := Option.some_injective _ hmn
    rw [← this]

/-- C1: at every minute-boundary crossing, a score record is emitted for
the elapsed minute iff both the quote and the depth accumulators close
to non-null summaries (the condition never consults the trade
accumulator, so an empty trade minute cannot block emission), and in
every case all three accumulators are reset before the triggering tick —
the first tick of the new minute — is routed into them. -/
theorem boundary_emission_and_reset (s : DriverState) (t : Tick) (m : ℤ)
    (hcur : s.current_minute_ms = some m) (hne : floor_minute_ms t.ts_ms ≠ m) :
    ((runStep s t).2.isSome ↔ (s.bt.close_minute).1.isSome ∧ (s.dp.close_minute).1.isSome)
    ∧ (runStep s t).1.bt = (routeTick (resetState s t) t).bt
    ∧ (runStep s t).1.dp = (routeTick (resetState s t) t).dp
    ∧ (runStep s t).1.atAgg = (routeTick (resetState s t) t).atAgg
    ∧ (∀ mn, (runStep s t).2 = some mn → mn.minute_ts_ms = m) :=
  have h := runStep_boundary s t m hcur hne
  ⟨h.1, h.2.1, h.2.2.1, h.2.2.2.1, h.2.2.2.2.2⟩

/-- Concrete driver state used by the C1 and C10 witnesses: one quote
update and one depth update already accumulated, current minute at
60000 ms. -/
def witnessState : DriverState :=
  { bt := BookTickerMinuteAgg.init.update 100 101
    dp := (Depth10MinuteAgg.init 10).update [(1, 1)] [(1, 1)]
    atAgg := AggTradeMinuteAgg.init
    roll := Rolling30m.init 30
    current_minute_ms := some 60000 }

/-- Witness for C1: the boundary tick at 120000 ms triggers close-out. -/
theorem boundary_emission_and_reset_witness :
    (witnessState.current_minute_ms = some 60000
      ∧ floor_minute_ms (Tick.quote 120000 100 101).ts_ms ≠ 60000)
    ∧ (((runStep witnessState (Tick.quote 120000 100 101)).2.isSome
        ↔ (witnessState.bt.close_minute).1.isSome ∧ (witnessState.dp.close_minute).1.isSome)
      ∧ (runStep witnessState (Tick.quote 120000 100 101)).1.bt
          = (routeTick (resetState witnessState (Tick.quote 120000 100 101))
              (Tick.quote 120000 100 101)).bt
      ∧ (runStep witnessState (Tick.quote 120000 100 101)).1.dp
          = (routeTick (resetState witnessState (Tick.quote 120000 100 101))
              (Tick.quote 120000 100 101)).dp
      ∧ (runStep witnessState (Tick.quote 120000 100 101)).1.atAgg
          = (routeTick (resetState witnessState (Tick.quote 120000 100 101))
              (Tick.quote 120000 100 101)).atAgg
      ∧ (∀ mn, (runStep witnessState (Tick.quote 120000 100 101)).2 = some mn
          → mn.minute_ts_ms = 60000)) :=
  ⟨⟨rfl, by decide⟩,
    boundary_emission_and_reset witnessState (Tick.quote 120000 100 101) 60000 rfl (by decide)⟩

/-- C10: a tick whose minute is strictly earlier than the current minute
is not dropped — it forces the same full close-out (emission governed by
the same quote-and-depth condition), the accumulators are reset and the
late tick is routed into them, and `current_minute_ms` moves backwards
to the late tick's minute. -/
theorem late_tick_flushes_backwards (s : DriverState) (t : Tick) (m : ℤ)
    (hcur : s.current_minute_ms = some m) (hlt : floor_minute_ms t.ts_ms < m) :
    (runStep s t).1.current_minute_ms = some (floor_minute_ms t.ts_ms)
    ∧ ((runStep s t).2.isSome ↔ (s.bt.close_minute).1.isSome ∧ (s.dp.close_minute).1.isSome)
    ∧ (runStep s t).1.bt = (routeTick (resetState s t) t).bt
    ∧ (runStep s t).1.dp = (routeTick (resetState s t) t).dp
    ∧ (runStep s t).1.atAgg = (routeTick (resetState s t) t).atAgg :=
  have h := runStep_boundary s t m hcur (ne_of_lt hlt)
  ⟨h.2.2.2.2.1, h.1, h.2.1, h.2.2.1, h.2.2.2.1⟩

/-- Witness for C10: a late tick at 30000 ms, one minute before the
in-flight minute starting at 60000 ms. -/
theorem late_tick_flushes_backwards_witness :
    (witnessState.current_minute_ms = some 60000
      ∧ floor_minute_ms (Tick.quote 30000 100 101).ts_ms < 60000)
    ∧ ((runStep witnessState (Tick.quote 30000 100 101)).1.current_minute_ms
        = some (floor_minute_ms (Tick.quote 30000 100 101).ts_ms)
      ∧ (((runStep witnessState (Tick.quote 30000 100 101)).2.isSome
        ↔ (witnessState.bt.close_minute).1.isSome ∧ (witnessState.dp.close_minute).1.isSome))
      ∧ (runStep witnessState (Tick.quote 30000 100 101)).1.bt
          = (routeTick (resetState witnessState (Tick.quote 30000 100 101))
              (Tick.quote 30000 100 101)).bt
      ∧ (runStep witnessState (Tick.quote 30000 100 101)).1.dp
          = (routeTick (resetState witnessState (Tick.quote 30000 100 101))
              (Tick.quote 30000 100 101)).dp
      ∧ (runStep witnessState (Tick.quote 30000 100 101)).1.atAgg
          = (routeTick (resetState witnessState (Tick.quote 30000 100 101))
              (Tick.quote 30000 100 101)).atAgg) :=
  ⟨⟨rfl, by decide⟩,
    late_tick_flushes_backwards witnessState (Tick.quote 30000 100 101) 60000 rfl (by decide)⟩

end MarketHealth
